import Mathlib

/-!
Verification development for the claude-metrics repository.

We give a shallow embedding of the core pipeline:
  * `scanner.py`  — JSONL line parsing (`from_jsonl_line`), conversation
    assembly (`_parse_conversation_file`), scanning with time/repository
    post-filters (`scan_conversations`, `_parse_since`);
  * `patterns.py` — the pattern matcher (`detect_patterns`,
    `_count_matches`, `_extract_sample`, the default pattern table,
    `load_custom_patterns`);
  * `storage.py`  — the SQLite-backed store (`store_conversation_metrics`,
    `_update_repository_metrics`) modelled as a pure state transformer over
    the three logical tables (conversations, patterns, repository_metrics).

Modelling conventions:
  * machine timestamps (Python `datetime`) are modelled as `Int` seconds;
    `timedelta(days = n)` is `n * 86400`;
  * `json.loads` is external library code, so a parsed line is represented
    by its outcome `Option Json` (`none` = `json.JSONDecodeError`, which the
    source catches); likewise `datetime.fromisoformat` is abstracted as a
    parameter `parseIso : String → Option Int` and `datetime.now()` as an
    `Int` parameter;
  * the `re` module is abstracted as a `RegexEngine` (compilation either
    fails — `re.error` — or yields a matcher); the source's exception
    handling around it is embedded explicitly;
  * Python exceptions that escape a function are modelled with `Except`.
-/

deriving instance DecidableEq for Except

namespace ClaudeMetrics

/-- JSON values, the possible results of decoding one line of a JSONL file. -/
inductive Json where
  | null : Json
  | bool (b : Bool) : Json
  | num (n : Int) : Json
  | str (s : String) : Json
  | arr (elems : List Json) : Json
  | obj (fields : List (String × Json)) : Json

/-- Python `dict.get(k)` on a decoded JSON object (`None` when absent). -/
def jget (fields : List (String × Json)) (k : String) : Option Json :=
  (fields.find? (fun kv => kv.1 == k)).map (·.2)

/-- Exceptions of the embedded Python code that escape to the caller. -/
inductive PyErr where
  | attributeError
  | validationError
  deriving DecidableEq, Repr

/-- `scanner.ConversationMessage` (pydantic model). -/
structure ConversationMessage where
  session_id : String
  timestamp : Int
  message_type : String
  content : String
  cwd : Option String
  git_branch : Option String
  deriving DecidableEq, Repr

/-- pydantic validation of an `Optional[str]` field fed a raw JSON value
(`none` = field absent). Non-(string/null) values fail validation. -/
def optStrField : Option Json → Except PyErr (Option String)
  | none => .ok none
  | some .null => .ok none
  | some (.str s) => .ok (some s)
  | some _ => .error .validationError

/-- `ConversationMessage.from_jsonl_line`, embedded on the decode outcome of
the (stripped) line. `decoded = none` is a `json.JSONDecodeError`, which the
source catches and turns into `None`. The source's `except` clause catches
only `(json.JSONDecodeError, KeyError, TypeError)`: calling `.get` on a
decoded value that is not an object raises `AttributeError`, which escapes,
and pydantic validation errors on non-string field values also escape. An
unparsable or non-string timestamp falls back to `now` (that inner `except`
does catch `ValueError` and `AttributeError`). -/
def from_jsonl_line (decoded : Option Json) (parseIso : String → Option Int)
    (now : Int) : Except PyErr (Option ConversationMessage) :=
  match decoded with
  | none => .ok none
  | some (.obj fields) =>
    let sessionIdJ := (jget fields "sessionId").getD (.str "")
    let timestampJ := (jget fields "timestamp").getD (.str "")
    let messageTypeJ := (jget fields "type").getD (.str "")
    let timestamp : Int :=
      match timestampJ with
      | .str s => (parseIso s).getD now
      | _ => now
    match (jget fields "message").getD (.obj []) with
    | .obj mfields =>
      let contentJ := (jget mfields "content").getD (.str "")
      match sessionIdJ, messageTypeJ, contentJ with
      | .str sid, .str mtype, .str content =>
        match optStrField (jget fields "cwd"), optStrField (jget fields "gitBranch") with
        | .ok cwd, .ok git_branch =>
          .ok (some { session_id := sid, timestamp := timestamp,
                      message_type := mtype, content := content,
                      cwd := cwd, git_branch := git_branch })
        | .error e, _ => .error e
        | _, .error e => .error e
      | _, _, _ => .error .validationError
    | _ => .error .attributeError
  | some _ => .error .attributeError

/-- Split a character list on a separator character (groups between
separators, possibly empty). -/
def splitOnChar (sep : Char) : List Char → List (List Char)
  | [] => [[]]
  | c :: cs =>
    let r := splitOnChar sep cs
    if c == sep then [] :: r
    else
      match r with
      | [] => [[c]]
      | g :: gs => (c :: g) :: gs

/-- `Path(p).name`: the last nonempty `/`-separated component. -/
def pathName (p : String) : String :=
  match (((splitOnChar '/' p.toList).filter (fun g => !g.isEmpty)).getLast?) with
  | some g => g.asString
  | none => ""

/-- `scanner.Conversation` (pydantic model). -/
structure Conversation where
  session_id : String
  repository_path : Option String
  git_branch : Option String
  start_time : Int
  end_time : Int
  message_count : Nat
  messages : List ConversationMessage
  deriving DecidableEq, Repr

/-- `Conversation.repository_name`: leaf of the path, `"unknown"` when the
path is falsy (`None` or `""`). -/
def Conversation.repository_name (c : Conversation) : String :=
  match c.repository_path with
  | none => "unknown"
  | some p => if p.isEmpty then "unknown" else pathName p

/-- `Conversation.duration_minutes = (end_time - start_time).total_seconds() / 60`. -/
def Conversation.duration_minutes (c : Conversation) : Rat :=
  ((c.end_time - c.start_time : Int) : Rat) / 60

/-- The message-collection loop of `_parse_conversation_file`: parse each
(nonblank) line in file order, keeping parsed messages. An exception raised
by `from_jsonl_line` is not caught there (the `except` clause of
`_parse_conversation_file` handles only `IOError`/`UnicodeDecodeError`),
so it aborts the loop and propagates. -/
def collectMessages (lines : List (Option Json)) (parseIso : String → Option Int)
    (now : Int) : Except PyErr (List ConversationMessage) :=
  match lines with
  | [] => .ok []
  | l :: ls =>
    match from_jsonl_line l parseIso now with
    | .error e => .error e
    | .ok m? =>
      match collectMessages ls parseIso now with
      | .error e => .error e
      | .ok rest =>
        .ok (match m? with
             | some m => m :: rest
             | none => rest)

/-- First truthy (present and nonempty) value in a list of optional strings:
the `if message.cwd and not repository_path` accumulation loop. -/
def firstTruthy : List (Option String) → Option String
  | [] => none
  | none :: rest => firstTruthy rest
  | some s :: rest => if s.isEmpty then firstTruthy rest else some s

/-- `min` over a nonempty collection, as `foldl`. -/
def listMin (x0 : Int) (xs : List Int) : Int := xs.foldl min x0

/-- `max` over a nonempty collection, as `foldl`. -/
def listMax (x0 : Int) (xs : List Int) : Int := xs.foldl max x0

/-- `ConversationScanner._parse_conversation_file`, embedded on the list of
decode outcomes of the file's nonblank lines. A file yielding no messages
produces `None`; otherwise the conversation metadata is derived exactly as
in the source. -/
def parse_conversation_file (lines : List (Option Json))
    (parseIso : String → Option Int) (now : Int) :
    Except PyErr (Option Conversation) :=
  match collectMessages lines parseIso now with
  | .error e => .error e
  | .ok [] => .ok none
  | .ok (m :: ms) =>
    .ok (some
      { session_id := m.session_id
      , repository_path := firstTruthy ((m :: ms).map (·.cwd))
      , git_branch := firstTruthy ((m :: ms).map (·.git_branch))
      , start_time := listMin m.timestamp (ms.map (·.timestamp))
      , end_time := listMax m.timestamp (ms.map (·.timestamp))
      , message_count := (m :: ms).length
      , messages := m :: ms })

/-! ## patterns.py -/

/-- Abstraction of the Python `re` module as used by `patterns.py`:
`compile` (with `re.IGNORECASE`) either fails with `re.error` (`none`) or
yields a matcher; `countAll` is `len(pattern.findall(text))`; `searchFirst`
is `pattern.search(text)`, giving the (start, end) character span of the
first match when there is one. -/
structure RegexEngine (π : Type) where
  compile : String → Option π
  countAll : π → String → Nat
  searchFirst : π → String → Option (Nat × Nat)

/-- `PatternDetector._count_matches` with the `try/except re.error`
structure made explicit: the compile outcome before the `except` clause. -/
def count_matches_attempt {π : Type} (E : RegexEngine π) (regex text : String) :
    Except Unit Nat :=
  match E.compile regex with
  | none => .error ()
  | some p => .ok (E.countAll p text)

/-- `PatternDetector._count_matches`: a `re.error` is caught and yields 0. -/
def count_matches {π : Type} (E : RegexEngine π) (regex text : String) : Nat :=
  match count_matches_attempt E regex text with
  | .error _ => 0
  | .ok n => n

/-- `PatternDetector._extract_sample`: a bounded excerpt around the first
match (20 characters of context each side, truncated to `maxLength` with a
`"..."` marker); `""` when the pattern is invalid (`re.error` caught) or
there is no match. -/
def extract_sample {π : Type} (E : RegexEngine π) (regex text : String)
    (maxLength : Nat := 100) : String :=
  match E.compile regex with
  | none => ""
  | some p =>
    match E.searchFirst p text with
    | none => ""
    | some (s, e) =>
      let start := s - 20
      let stop := min text.length (e + 20)
      let sample := ((text.drop start).take (stop - start)).trim
      if sample.length > maxLength then sample.take maxLength ++ "..." else sample

/-- One entry of the pattern table (`{"name": ..., "regex": ..., "weight": ...}`). -/
structure PatternDef where
  name : String
  regex : String
  weight : Int
  deriving DecidableEq, Repr

/-- `patterns.PatternMatch`. -/
structure PatternMatch where
  pattern_name : String
  pattern_category : String
  weight : Int
  match_count : Nat
  message_type : String
  sample_text : String
  deriving DecidableEq, Repr

/-- `patterns.ConversationPatterns`; `total_score` is computed in
`__init__` as `sum(p.weight * p.match_count for p in patterns)`. -/
structure ConversationPatterns where
  session_id : String
  repository_name : String
  patterns : List PatternMatch
  total_score : Int
  deriving DecidableEq, Repr

/-- The `ConversationPatterns` constructor (computes `total_score`). -/
def mkConversationPatterns (sid repo : String) (pats : List PatternMatch) :
    ConversationPatterns :=
  { session_id := sid, repository_name := repo, patterns := pats
  , total_score := (pats.map (fun p => p.weight * (p.match_count : Int))).sum }

/-- The content-accumulation loop of `detect_patterns`: one pass over the
messages, collecting lowercased user contents and assistant contents (in
order); messages of any other role are skipped. -/
def collectContents : List ConversationMessage → List String × List String
  | [] => ([], [])
  | m :: ms =>
    let rest := collectContents ms
    if m.message_type == "user" then (m.content.toLower :: rest.1, rest.2)
    else if m.message_type == "assistant" then (rest.1, m.content.toLower :: rest.2)
    else rest

/-- The per-definition body of the `detect_patterns` loop: emit a match for
the user blob and/or the assistant blob when the occurrence count is
positive. -/
def detectForDef {π : Type} (E : RegexEngine π) (cat : String) (d : PatternDef)
    (userText assistantText : String) : List PatternMatch :=
  (if count_matches E d.regex userText > 0 then
    [{ pattern_name := d.name, pattern_category := cat, weight := d.weight
     , match_count := count_matches E d.regex userText, message_type := "user"
     , sample_text := extract_sample E d.regex userText }]
   else [])
  ++
  (if count_matches E d.regex assistantText > 0 then
    [{ pattern_name := d.name, pattern_category := cat, weight := d.weight
     , match_count := count_matches E d.regex assistantText, message_type := "assistant"
     , sample_text := extract_sample E d.regex assistantText }]
   else [])

/-- `PatternDetector.detect_patterns`, parameterized by the pattern table
`self.patterns` (a dict from category name to pattern definitions, modelled
as an insertion-ordered association list). -/
def detect_patterns {π : Type} (E : RegexEngine π)
    (table : List (String × List PatternDef)) (conv : Conversation) :
    ConversationPatterns :=
  let contents := collectContents conv.messages
  let userText := String.intercalate " " contents.1
  let assistantText := String.intercalate " " contents.2
  let pats :=
    (table.map (fun ent =>
      (ent.2.map (fun d => detectForDef E ent.1 d userText assistantText)).flatten)).flatten
  mkConversationPatterns conv.session_id conv.repository_name pats

/-- `PatternDetector._load_default_patterns`: the built-in table, verbatim. -/
def load_default_patterns : List (String × List PatternDef) :=
  [ ("error_detection",
     [ { name := "test_failures"
       , regex := "\\b(test\\s+fail|assertion\\s+error|test.*failed|tests?\\s+are\\s+failing)\\b"
       , weight := 80 }
     , { name := "build_errors"
       , regex := "\\b(build\\s+fail|compilation\\s+error|cannot\\s+build|build\\s+error)\\b"
       , weight := 85 }
     , { name := "runtime_errors"
       , regex := "\\b(error|exception|traceback|stack\\s+trace|uncaught\\s+exception)\\b"
       , weight := 75 }
     , { name := "syntax_errors"
       , regex := "\\b(syntax\\s+error|parse\\s+error|invalid\\s+syntax|unexpected\\s+token)\\b"
       , weight := 70 }
     , { name := "type_errors"
       , regex := "\\b(type\\s+error|typescript\\s+error|mypy\\s+error|type\\s+mismatch)\\b"
       , weight := 65 } ])
  , ("code_quality",
     [ { name := "quick_fixes"
       , regex := "\\b(quick\\s+fix|hack|workaround|temporary\\s+fix)\\b"
       , weight := 60 }
     , { name := "todo_items"
       , regex := "\\b(todo|fixme|hack|temporary)\\b"
       , weight := 40 }
     , { name := "refactoring"
       , regex := "\\b(refactor|clean\\s+up|optimize|improve\\s+code)\\b"
       , weight := 50 }
     , { name := "code_review"
       , regex := "\\b(code\\s+review|peer\\s+review|review\\s+changes)\\b"
       , weight := 45 } ])
  , ("tool_usage",
     [ { name := "file_operations"
       , regex := "\\b(read|write|edit|create|delete)\\s+(file|directory)\\b"
       , weight := 30 }
     , { name := "git_operations"
       , regex := "\\b(git\\s+commit|git\\s+push|git\\s+merge|git\\s+branch|git\\s+checkout)\\b"
       , weight := 50 }
     , { name := "testing"
       , regex := "\\b(run\\s+test|pytest|npm\\s+test|test\\s+suite|unit\\s+test)\\b"
       , weight := 70 }
     , { name := "debugging"
       , regex := "\\b(debug|debugger|breakpoint|console\\.log|print\\s+debug)\\b"
       , weight := 55 }
     , { name := "package_management"
       , regex := "\\b(npm\\s+install|pip\\s+install|yarn\\s+add|composer\\s+install)\\b"
       , weight := 40 }
     , { name := "database_operations"
       , regex := "\\b(database|sql|query|migration|schema)\\b"
       , weight := 45 } ])
  , ("development_workflow",
     [ { name := "feature_development"
       , regex := "\\b(new\\s+feature|implement|add\\s+functionality)\\b"
       , weight := 60 }
     , { name := "bug_fixes"
       , regex := "\\b(bug\\s+fix|fix\\s+issue|resolve\\s+problem|patch)\\b"
       , weight := 75 }
     , { name := "documentation"
       , regex := "\\b(documentation|readme|docs|comment|docstring)\\b"
       , weight := 35 }
     , { name := "performance_optimization"
       , regex := "\\b(performance|optimize|speed\\s+up|efficient)\\b"
       , weight := 55 }
     , { name := "security"
       , regex := "\\b(security|vulnerability|auth|authorization|encryption)\\b"
       , weight := 80 } ]) ]

/-- Python `d[k] = v` on an insertion-ordered dict modelled as an
association list (Python dict keys are unique, so updating the first
occurrence in place is the dict's update-in-place; a missing key is
appended at the end, as dict insertion order does). -/
def dictSet {α : Type} : List (String × α) → String → α → List (String × α)
  | [], k, v => [(k, v)]
  | e :: es, k, v => if e.1 == k then (k, v) :: es else e :: dictSet es k v

/-- Python `d1.update(d2)` on insertion-ordered dicts. -/
def dictUpdate {α : Type} (d1 d2 : List (String × α)) : List (String × α) :=
  d2.foldl (fun acc kv => dictSet acc kv.1 kv.2) d1

/-- Python `d[k]`-lookup (`d.get(k)`), first entry with the key. -/
def dictGet {α : Type} (d : List (String × α)) (k : String) : Option α :=
  (d.find? (fun e => e.1 == k)).map (·.2)

/-- `PatternDetector.load_custom_patterns`: `self.patterns.update(config)`
guarded by `if patterns_config:` (a falsy — empty — config is a no-op). -/
def load_custom_patterns (defaults config : List (String × List PatternDef)) :
    List (String × List PatternDef) :=
  if config.isEmpty then defaults else dictUpdate defaults config

/-- A concrete regex engine used to instantiate witnesses: `"["` fails to
compile (as it does under Python `re`), any other pattern matches its own
text as a literal substring. -/
def demoEngine : RegexEngine String :=
  { compile := fun r => if r == "[" then none else some r
  , countAll := fun p t => (t.splitOn p).length - 1
  , searchFirst := fun _ _ => none }

/-! ## storage.py

The SQLite store is modelled by its three logical tables. Physical columns
that carry no logical content (`id AUTOINCREMENT`, `created_at`,
`updated_at`) are omitted. `INSERT OR REPLACE` on a primary-keyed table is
modelled as filter-out-the-key then append. -/

/-- A row of the `conversations` table. -/
structure ConvRow where
  session_id : String
  repository_path : Option String
  repository_name : String
  git_branch : Option String
  start_time : Int
  end_time : Int
  duration_minutes : Rat
  message_count : Nat
  deriving DecidableEq, Repr

/-- A row of the `patterns` table. -/
structure PatternRow where
  session_id : String
  pattern_name : String
  pattern_category : String
  weight : Int
  match_count : Int
  message_type : String
  sample_text : String
  deriving DecidableEq, Repr

/-- A row of the `repository_metrics` table. The `pattern_summary` JSON
blob — a mapping category → pattern_name → summed match_count — is modelled
as a list of `((name, category), total)` entries over the groups produced
by the `GROUP BY pattern_name, pattern_category` query. -/
structure RepoMetricsRow where
  repository_name : String
  conversation_count : Nat
  total_messages : Int
  error_count : Int
  tool_usage_count : Int
  last_activity : Option Int
  pattern_summary : List ((String × String) × Int)
  deriving DecidableEq, Repr

/-- The store state: the three logical tables. -/
structure StoreState where
  conversations : List ConvRow
  patterns : List PatternRow
  repository_metrics : List RepoMetricsRow
  deriving DecidableEq, Repr

/-- A freshly initialized database. -/
def emptyStore : StoreState := ⟨[], [], []⟩

/-- The `conversations` rows of repository `R`
(`WHERE repository_name = R`). -/
def convsFor (convs : List ConvRow) (R : String) : List ConvRow :=
  convs.filter (fun c => c.repository_name == R)

/-- The join multiplicity of a pattern row against the conversations of
repository `R`: how many `conversations` rows with `repository_name = R`
share its `session_id` (`JOIN conversations c ON p.session_id = c.session_id
WHERE c.repository_name = R`). -/
def multOf (convs : List ConvRow) (R : String) (p : PatternRow) : Nat :=
  (convsFor convs R).countP (fun c => c.session_id == p.session_id)

/-- `SUM(match_count)` over the join rows of repository `R` whose pattern
row satisfies `q` (each pattern row weighted by its join multiplicity). -/
def patSum (convs : List ConvRow) (pats : List PatternRow) (R : String)
    (q : PatternRow → Bool) : Int :=
  ((pats.filter q).map (fun p => (multOf convs R p : Int) * p.match_count)).sum

/-- `MAX(end_time)` over a list of conversation rows (`NULL` when empty). -/
def lastActivity : List ConvRow → Option Int
  | [] => none
  | c :: cs => some ((cs.map (·.end_time)).foldl max c.end_time)

/-- The `(pattern_name, pattern_category)` groups of the
`GROUP BY pattern_name, pattern_category` summary query: the keys of the
pattern rows that join at least one conversation of `R`. -/
def summaryKeys (convs : List ConvRow) (pats : List PatternRow) (R : String) :
    List (String × String) :=
  ((pats.filter (fun p => decide (0 < multOf convs R p))).map
    (fun p => (p.pattern_name, p.pattern_category))).dedup

/-- The summed `match_count` of one `(name, category)` group of `R`. -/
def keyTotal (convs : List ConvRow) (pats : List PatternRow) (R : String)
    (k : String × String) : Int :=
  patSum convs pats R (fun p => p.pattern_name == k.1 && p.pattern_category == k.2)

/-- The `pattern_summary` mapping of repository `R`. -/
def summaryEntries (convs : List ConvRow) (pats : List PatternRow) (R : String) :
    List ((String × String) × Int) :=
  (summaryKeys convs pats R).map (fun k => (k, keyTotal convs pats R k))

/-- `LocalStorage._update_repository_metrics`: the rollup row for
repository `R`, recomputed from the current `conversations` and `patterns`
tables exactly as the three SQL queries do (`total_messages or 0` turns the
`NULL` sum of an empty repository into 0; absent categories give
`pattern_counts.get(..., 0) = 0`). -/
def rollup (convs : List ConvRow) (pats : List PatternRow) (R : String) :
    RepoMetricsRow :=
  { repository_name := R
  , conversation_count := (convsFor convs R).length
  , total_messages := ((convsFor convs R).map (fun c => (c.message_count : Int))).sum
  , error_count := patSum convs pats R (fun p => p.pattern_category == "error_detection")
  , tool_usage_count := patSum convs pats R (fun p => p.pattern_category == "tool_usage")
  , last_activity := lastActivity (convsFor convs R)
  , pattern_summary := summaryEntries convs pats R }

/-- The `conversations` row written for a `Conversation`. -/
def convRowOf (c : Conversation) : ConvRow :=
  { session_id := c.session_id
  , repository_path := c.repository_path
  , repository_name := c.repository_name
  , git_branch := c.git_branch
  , start_time := c.start_time
  , end_time := c.end_time
  , duration_minutes := c.duration_minutes
  , message_count := c.message_count }

/-- The `patterns` rows inserted for a conversation's detected patterns
(the source inserts `conversation.session_id` on every row). -/
def patRowsOf (sid : String) (pats : List PatternMatch) : List PatternRow :=
  pats.map (fun p =>
    { session_id := sid
    , pattern_name := p.pattern_name
    , pattern_category := p.pattern_category
    , weight := p.weight
    , match_count := (p.match_count : Int)
    , message_type := p.message_type
    , sample_text := p.sample_text })

/-- `LocalStorage.store_conversation_metrics`: replace-or-insert the
conversation row keyed by `session_id`, delete-then-insert the pattern rows
of that session, then recompute and replace the rollup row of the
conversation's `repository_name`. -/
def store_conversation_metrics (s : StoreState) (c : Conversation)
    (cp : ConversationPatterns) : StoreState :=
  let convs := (s.conversations.filter (fun r => !(r.session_id == c.session_id)))
                 ++ [convRowOf c]
  let pats := (s.patterns.filter (fun r => !(r.session_id == c.session_id)))
                 ++ patRowsOf c.session_id cp.patterns
  let row := rollup convs pats c.repository_name
  { conversations := convs
  , patterns := pats
  , repository_metrics :=
      (s.repository_metrics.filter
        (fun r => !(r.repository_name == c.repository_name))) ++ [row] }

/-- Lookup of the stored rollup row of repository `R`. -/
def lookupMetrics (s : StoreState) (R : String) : Option RepoMetricsRow :=
  s.repository_metrics.find? (fun r => r.repository_name == R)

/-- A sequence of `store_conversation_metrics` calls. -/
def applyAll (s : StoreState)
    (inputs : List (Conversation × ConversationPatterns)) : StoreState :=
  inputs.foldl (fun st inp => store_conversation_metrics st inp.1 inp.2) s

/-- No session is upserted under two different repository names across the
call sequence (each conversation keeps its repository). -/
def Stable (inputs : List (Conversation × ConversationPatterns)) : Prop :=
  ∀ i ∈ inputs, ∀ j ∈ inputs,
    i.1.session_id = j.1.session_id → i.1.repository_name = j.1.repository_name

instance (inputs : List (Conversation × ConversationPatterns)) :
    Decidable (Stable inputs) := by
  unfold Stable; infer_instance

/-- Every stored rollup row agrees with the aggregate recomputed from the
currently stored conversation and pattern rows of its repository. -/
def MetricsOK (s : StoreState) : Prop :=
  ∀ r ∈ s.repository_metrics, r = rollup s.conversations s.patterns r.repository_name

/-! ## scan_conversations and the time window -/

/-- One day of seconds (`timedelta(days=1)`). -/
def daySecs : Int := 86400

/-- `int(...)` on a digit string. -/
def digitsToNat (ds : List Char) : Nat :=
  ds.foldl (fun acc c => acc * 10 + (c.toNat - '0'.toNat)) 0

/-- `ConversationScanner._parse_since`: an empty (falsy) string gives no
cutoff; otherwise `re.match(r"(\d+)([dwm])", since.lower())` — an anchored
prefix match, trailing characters ignored — yields
`now - amount * (1 | 7 | 30) days`, and a failed match gives no cutoff.
(`since.lower()` lowercases character-wise, modelled as a char map.) -/
def parse_since (since : String) (now : Int) : Option Int :=
  if since.isEmpty then none
  else
    match (since.toList.map Char.toLower).span (·.isDigit) with
    | (digits, rest) =>
      if digits.isEmpty then none
      else
        match rest with
        | [] => none
        | u :: _ =>
          let amount : Int := (digitsToNat digits : Int)
          if u == 'd' then some (now - amount * daySecs)
          else if u == 'w' then some (now - amount * (7 * daySecs))
          else if u == 'm' then some (now - amount * (30 * daySecs))
          else none

/-- Stable insertion (after existing elements with an equal or larger
`start_time`) used to model Python's stable
`sorted(..., key=start_time, reverse=True)`. -/
def insertDesc (c : Conversation) : List Conversation → List Conversation
  | [] => [c]
  | x :: xs =>
    if c.start_time ≤ x.start_time then x :: insertDesc c xs else c :: x :: xs

/-- Stable sort by `start_time`, descending. -/
def sortDesc (l : List Conversation) : List Conversation :=
  l.foldl (fun acc c => insertDesc c acc) []

/-- The per-conversation filter of `scan_conversations`: drop when a cutoff
exists and `start_time < cutoff`; drop when the repository filter is truthy
(present and nonempty) and is not a substring of
`str(repository_path or "")`. -/
def keepConv (cutoff : Option Int) (repoFilter : Option String)
    (c : Conversation) : Bool :=
  (match cutoff with
   | some t => !(decide (c.start_time < t))
   | none => true)
  &&
  (match repoFilter with
   | some rf =>
     if rf.isEmpty then true
     else decide (List.IsInfix rf.toList (c.repository_path.getD "").toList)
   | none => true)

/-- The conversations assembled from a list of files (each file given as
the decode outcomes of its nonblank lines), before any filtering: the files
whose parse neither raises (`except Exception: continue`) nor comes back
empty. -/
def assembleFiles (files : List (List (Option Json)))
    (parseIso : String → Option Int) (now : Int) : List Conversation :=
  files.filterMap (fun f =>
    match parse_conversation_file f parseIso now with
    | .ok (some c) => some c
    | _ => none)

/-- `ConversationScanner.scan_conversations`: parse every file, skip
failures, apply the time-window and repository post-filters, and return the
survivors sorted by `start_time` descending. -/
def scan_conversations (files : List (List (Option Json)))
    (parseIso : String → Option Int) (now : Int)
    (repoFilter : Option String) (since : String) : List Conversation :=
  let cutoff := parse_since since now
  sortDesc ((assembleFiles files parseIso now).filter (keepConv cutoff repoFilter))

/-- Claim-side definition, following the claim's words: `since` is exactly
of the form `<integer><d|w|m>` (a nonempty run of digits followed by a
single unit letter and nothing else). -/
def sinceHasExactForm (s : String) : Bool :=
  match s.toList.span (·.isDigit) with
  | (digits, [u]) => !digits.isEmpty && (u == 'd' || u == 'w' || u == 'm')
  | _ => false

/-! ## Concrete inputs used by witnesses and counterexamples -/

/-- The message parsed from the line `{}` with `now = 5`. -/
def wMsg6 : ConversationMessage :=
  { session_id := "", timestamp := 5, message_type := "", content := ""
  , cwd := none, git_branch := none }

/-- The conversation assembled from the one-line file `{}` with `now = 5`. -/
def wConv6 : Conversation :=
  { session_id := "", repository_path := none, git_branch := none
  , start_time := 5, end_time := 5, message_count := 1, messages := [wMsg6] }

/-- A log line whose timestamp field is the tag `"T"`. -/
def wLine8 : Option Json := some (.obj [("timestamp", .str "T")])

/-- An ISO-parse stub mapping the tag `"T"` to 10 days before epoch 0. -/
def isoT : String → Option Int := fun s => if s == "T" then some (-864000) else none

/-- A conversation upserted under repository `A` with session `s`. -/
def cxConvA : Conversation :=
  { session_id := "s", repository_path := some "/x/A", git_branch := none
  , start_time := 0, end_time := 0, message_count := 1, messages := [] }

/-- The same session `s` upserted again under repository `B`. -/
def cxConvB : Conversation :=
  { session_id := "s", repository_path := some "/x/B", git_branch := none
  , start_time := 0, end_time := 0, message_count := 1, messages := [] }

/-- A detection result with no matches. -/
def cxCP : ConversationPatterns :=
  { session_id := "s", repository_name := "A", patterns := [], total_score := 0 }

/-- The store after upserting session `s` under `A` and then under `B`. -/
def cxState : StoreState :=
  applyAll emptyStore [(cxConvA, cxCP), (cxConvB, cxCP)]

/-- First witness conversation for repository `A`. -/
def wConvW1 : Conversation :=
  { session_id := "w1", repository_path := some "/r/A", git_branch := none
  , start_time := 0, end_time := 10, message_count := 2, messages := [] }

/-- Second witness conversation for repository `A`. -/
def wConvW2 : Conversation :=
  { session_id := "w2", repository_path := some "/r/A", git_branch := none
  , start_time := 5, end_time := 20, message_count := 3, messages := [] }

/-- Witness detection result for `w1`: one error_detection match. -/
def wCPW1 : ConversationPatterns :=
  mkConversationPatterns "w1" "A"
    [{ pattern_name := "runtime_errors", pattern_category := "error_detection"
     , weight := 75, match_count := 2, message_type := "user", sample_text := "err" }]

/-- Witness detection result for `w2`: one tool_usage match. -/
def wCPW2 : ConversationPatterns :=
  mkConversationPatterns "w2" "A"
    [{ pattern_name := "git_operations", pattern_category := "tool_usage"
     , weight := 50, match_count := 3, message_type := "assistant", sample_text := "git" }]

/-- The witness upsert sequence: two distinct sessions, both repository `A`. -/
def wInputs : List (Conversation × ConversationPatterns) :=
  [(wConvW1, wCPW1), (wConvW2, wCPW2)]

/-- Messages of the role-independence witness: a user message only. -/
def wMsgsA : List ConversationMessage :=
  [{ session_id := "s", timestamp := 0, message_type := "user", content := "Hello"
   , cwd := none, git_branch := none }]

/-- Same user messages plus an extra `system`-role message. -/
def wMsgsB : List ConversationMessage :=
  [{ session_id := "s", timestamp := 0, message_type := "user", content := "Hello"
   , cwd := none, git_branch := none }
  ,{ session_id := "s", timestamp := 1, message_type := "system", content := "build error"
   , cwd := none, git_branch := none }]

/-- Role-independence witness conversation (user message only). -/
def wConvRA : Conversation :=
  { session_id := "s", repository_path := some "/repo/foo", git_branch := none
  , start_time := 0, end_time := 1, message_count := 1, messages := wMsgsA }

/-- Role-independence witness conversation (extra `system` message). -/
def wConvRB : Conversation :=
  { session_id := "s", repository_path := some "/repo/foo", git_branch := none
  , start_time := 0, end_time := 1, message_count := 2, messages := wMsgsB }

/-! ## Lemmas -/

lemma filter_self_append {α : Type} (p : α → Bool) (l xs : List α)
    (h : ∀ a ∈ xs, p a = false) :
    (l.filter p ++ xs).filter p = l.filter p := by
  have h1 : (l.filter p).filter p = l.filter p := by
    rw [List.filter_filter]
    exact List.filter_congr (fun a _ => Bool.and_self (p a))
  have h2 : xs.filter p = [] := by
    rw [List.filter_eq_nil_iff]
    intro a ha
    simp [h a ha]
  rw [List.filter_append, h1, h2, List.append_nil]

/-! ## Claim theorems -/

/-- Claim C3: `store_conversation_metrics` is idempotent — calling it twice
with the same (conversation, patterns) pair leaves the entire logical store
state (conversation row, pattern rows, rollup row) identical to calling it
once. -/
theorem store_conversation_metrics_idempotent (s : StoreState)
    (c : Conversation) (cp : ConversationPatterns) :
    store_conversation_metrics (store_conversation_metrics s c cp) c cp
      = store_conversation_metrics s c cp := by
  simp only [store_conversation_metrics]
  have hconv := filter_self_append (fun r : ConvRow => !(r.session_id == c.session_id))
    s.conversations [convRowOf c]
    (by intro a ha
        simp only [List.mem_singleton] at ha
        subst ha
        simp [convRowOf])
  have hpat := filter_self_append (fun r : PatternRow => !(r.session_id == c.session_id))
    s.patterns (patRowsOf c.session_id cp.patterns)
    (by intro a ha
        simp only [patRowsOf, List.mem_map] at ha
        obtain ⟨p, -, rfl⟩ := ha
        simp)
  rw [hconv, hpat]
  have hmet := filter_self_append
    (fun r : RepoMetricsRow => !(r.repository_name == c.repository_name))
    s.repository_metrics
    [rollup (s.conversations.filter (fun r => !(r.session_id == c.session_id)) ++ [convRowOf c])
            (s.patterns.filter (fun r => !(r.session_id == c.session_id)) ++ patRowsOf c.session_id cp.patterns)
            c.repository_name]
    (by intro a ha
        simp only [List.mem_singleton] at ha
        subst ha
        simp [rollup])
  rw [hmet]

/-- Claim C4 (refuting totality): a line of valid JSON whose top level is
not an object — here the array `[]` — makes `from_jsonl_line` raise
`AttributeError` to its caller (`data.get` on a list; `AttributeError` is
not in the source's `except` tuple), for every ISO-parser behaviour and
every current time. -/
theorem from_jsonl_line_raises_on_nonobject (parseIso : String → Option Int)
    (now : Int) :
    from_jsonl_line (some (.arr [])) parseIso now = .error .attributeError := rfl

/-- Claim C5 (counterexample): the line `{}` decodes to an object missing
the session identifier, role tag and message content, yet `from_jsonl_line`
does NOT yield nothing — it returns a message built from the `.get`
defaults. -/
theorem from_jsonl_line_missing_fields_yields_message :
    from_jsonl_line (some (.obj [])) (fun _ => none) 0 ≠ .ok none ∧
    from_jsonl_line (some (.obj [])) (fun _ => none) 0
      = .ok (some { session_id := "", timestamp := 0, message_type := ""
                  , content := "", cwd := none, git_branch := none }) := by
  exact ⟨by decide, by decide⟩

/-- Claim C5 as amended: a line whose JSON decode fails yields no message;
but an object missing the session identifier, role tag and message content
does not yield nothing — the missing fields are defaulted (empty strings,
current time, assuming the ISO parser rejects the empty string as
`datetime.fromisoformat` does) and a message is returned. -/
theorem from_jsonl_line_decode_failure_and_defaults
    (parseIso : String → Option Int) (now : Int) (hiso : parseIso "" = none) :
    from_jsonl_line none parseIso now = .ok none ∧
    from_jsonl_line (some (.obj [])) parseIso now
      = .ok (some { session_id := "", timestamp := now, message_type := ""
                  , content := "", cwd := none, git_branch := none }) := by
  refine ⟨rfl, ?_⟩
  simp [from_jsonl_line, jget, optStrField, hiso]

/-- Witness for the amended C5 at a concrete ISO parser and time. -/
theorem from_jsonl_line_decode_failure_and_defaults_witness :
    from_jsonl_line none (fun _ => none) 3 = .ok none ∧
    from_jsonl_line (some (.obj [])) (fun _ => none) 3
      = .ok (some { session_id := "", timestamp := 3, message_type := ""
                  , content := "", cwd := none, git_branch := none }) :=
  from_jsonl_line_decode_failure_and_defaults (fun _ => none) 3 rfl

lemma dictGet_cons {α : Type} (e : String × α) (es : List (String × α)) (k : String) :
    dictGet (e :: es) k = if e.1 == k then some e.2 else dictGet es k := by
  simp only [dictGet, List.find?]
  cases h : e.1 == k <;> simp

lemma dictGet_dictSet_same {α : Type} (d : List (String × α)) (k : String) (v : α) :
    dictGet (dictSet d k v) k = some v := by
  induction d with
  | nil => simp [dictSet, dictGet_cons]
  | cons e es ih =>
    rw [dictSet]
    by_cases h : (e.1 == k) = true
    · rw [if_pos h, dictGet_cons]
      simp
    · rw [if_neg h, dictGet_cons, if_neg h]
      exact ih

lemma dictGet_dictSet_ne {α : Type} (d : List (String × α)) (k k' : String) (v : α)
    (h : k' ≠ k) :
    dictGet (dictSet d k v) k' = dictGet d k' := by
  have hkk : (k == k') = false := by
    simp only [beq_eq_false_iff_ne]
    exact fun hh => h hh.symm
  induction d with
  | nil =>
    rw [dictSet, dictGet_cons]
    simp [hkk, dictGet]
  | cons e es ih =>
    rw [dictSet]
    by_cases he : (e.1 == k) = true
    · have he2 : (e.1 == k') = false := by
        rw [(by simpa using he : e.1 = k)]
        exact hkk
      rw [if_pos he, dictGet_cons, dictGet_cons, hkk, he2]
      simp
    · rw [if_neg he, dictGet_cons, dictGet_cons]
      by_cases he' : (e.1 == k') = true
      · rw [if_pos he', if_pos he']
      · rw [if_neg he', if_neg he']
        exact ih

lemma dictGet_eq_none_of_not_mem {α : Type} (d : List (String × α)) (k : String)
    (h : k ∉ d.map Prod.fst) : dictGet d k = none := by
  induction d with
  | nil => rfl
  | cons e es ih =>
    simp only [List.map_cons, List.mem_cons, not_or] at h
    rw [dictGet_cons, if_neg (by simp only [beq_iff_eq]; exact fun hh => h.1 hh.symm)]
    exact ih h.2

lemma dictGet_dictUpdate {α : Type} (d2 : List (String × α)) (d1 : List (String × α))
    (k : String) (hnd : (d2.map Prod.fst).Nodup) :
    dictGet (dictUpdate d1 d2) k
      = match dictGet d2 k with
        | some v => some v
        | none => dictGet d1 k := by
  induction d2 generalizing d1 with
  | nil => rfl
  | cons e es ih =>
    simp only [List.map_cons, List.nodup_cons] at hnd
    have hstep : dictUpdate d1 (e :: es) = dictUpdate (dictSet d1 e.1 e.2) es := rfl
    rw [hstep, ih _ hnd.2, dictGet_cons]
    by_cases hk : e.1 = k
    · subst hk
      have h2 : dictGet es e.1 = none := dictGet_eq_none_of_not_mem es e.1 hnd.1
      rw [h2, if_pos (by simp)]
      exact dictGet_dictSet_same d1 e.1 e.2
    · rw [if_neg (by simpa using hk)]
      rw [dictGet_dictSet_ne d1 e.1 k e.2 (fun hh => hk hh.symm)]

/-- Claim C9: `load_custom_patterns` merges the configuration over the
defaults at category granularity — a category present in the configuration
has its whole default pattern list replaced by the configured list, and a
category absent from the configuration keeps its default list. -/
theorem load_custom_patterns_category_merge
    (defaults config : List (String × List PatternDef))
    (hnd : (config.map Prod.fst).Nodup) (cat : String) :
    (∀ l, dictGet config cat = some l →
        dictGet (load_custom_patterns defaults config) cat = some l) ∧
    (dictGet config cat = none →
        dictGet (load_custom_patterns defaults config) cat = dictGet defaults cat) := by
  unfold load_custom_patterns
  by_cases hc : config.isEmpty
  · have : config = [] := by
      cases config with
      | nil => rfl
      | cons e es => exact absurd hc (by simp [List.isEmpty])
    subst this
    refine ⟨?_, ?_⟩
    · intro l hl
      cases hl
    · intro h0
      rw [if_pos (by rfl : ([] : List (String × List PatternDef)).isEmpty = true)]
  · rw [if_neg hc]
    constructor
    · intro l hl
      rw [dictGet_dictUpdate config defaults cat hnd, hl]
    · intro hl
      rw [dictGet_dictUpdate config defaults cat hnd, hl]

/-- Witness for C9: a single custom `error_detection` pattern replaces the
whole built-in `error_detection` list, while `tool_usage` keeps its
defaults. -/
theorem load_custom_patterns_category_merge_witness :
    dictGet (load_custom_patterns load_default_patterns
      [("error_detection", [{ name := "custom", regex := "boom", weight := 1 }])])
      "error_detection" = some [{ name := "custom", regex := "boom", weight := 1 }] ∧
    dictGet (load_custom_patterns load_default_patterns
      [("error_detection", [{ name := "custom", regex := "boom", weight := 1 }])])
      "tool_usage" = dictGet load_default_patterns "tool_usage" := by
  constructor
  · exact (load_custom_patterns_category_merge load_default_patterns
      [("error_detection", [{ name := "custom", regex := "boom", weight := 1 }])]
      (by decide) "error_detection").1 _ rfl
  · exact (load_custom_patterns_category_merge load_default_patterns
      [("error_detection", [{ name := "custom", regex := "boom", weight := 1 }])]
      (by decide) "tool_usage").2 rfl

/-- Claim C7: an invalid pattern expression (one the engine fails to
compile, i.e. `re.compile` raises `re.error`) yields 0 from match counting
and `""` from sample extraction on every text, and a pattern definition
with such an expression contributes nothing to `detect_patterns` — it is
as if the definition were absent, so a malformed custom pattern cannot
crash or alter a scan. -/
theorem invalid_pattern_harmless {π : Type} (E : RegexEngine π) (r : String)
    (hr : E.compile r = none) :
    (∀ t, count_matches E r t = 0 ∧ extract_sample E r t = "") ∧
    (∀ (pre post : List (String × List PatternDef)) (cat name : String) (w : Int)
       (dpre dpost : List PatternDef) (conv : Conversation),
       detect_patterns E
           (pre ++ (cat, dpre ++ { name := name, regex := r, weight := w } :: dpost) :: post)
           conv
         = detect_patterns E (pre ++ (cat, dpre ++ dpost) :: post) conv) := by
  have hcount : ∀ t, count_matches E r t = 0 := by
    intro t
    simp [count_matches, count_matches_attempt, hr]
  constructor
  · intro t
    exact ⟨hcount t, by simp [extract_sample, hr]⟩
  · intro pre post cat name w dpre dpost conv
    have hdef : ∀ u a, detectForDef E cat { name := name, regex := r, weight := w } u a = [] := by
      intro u a
      simp [detectForDef, hcount]
    simp [detect_patterns, hdef]

/-- Witness for C7 at the concrete engine whose compilation of `"["`
fails. -/
theorem invalid_pattern_harmless_witness :
    count_matches demoEngine "[" "an error occurred" = 0 ∧
    extract_sample demoEngine "[" "an error occurred" = "" :=
  (invalid_pattern_harmless demoEngine "[" (by rfl)).1 "an error occurred"

lemma collectContents_fst (ms : List ConversationMessage) :
    (collectContents ms).1
      = (ms.filter (fun m => m.message_type == "user")).map (fun m => m.content.toLower) := by
  induction ms with
  | nil => rfl
  | cons m rest ih =>
    rw [collectContents]
    by_cases hu : (m.message_type == "user") = true
    · rw [if_pos hu]
      simp only [List.filter_cons, hu, if_true, List.map_cons]
      exact congrArg _ ih
    · have hu' : (m.message_type == "user") = false := by simpa using hu
      rw [if_neg hu]
      by_cases ha : (m.message_type == "assistant") = true
      · rw [if_pos ha]
        simp only [List.filter_cons, hu', Bool.false_eq_true, if_false]
        exact ih
      · rw [if_neg ha]
        simp only [List.filter_cons, hu', Bool.false_eq_true, if_false]
        exact ih

lemma collectContents_snd (ms : List ConversationMessage) :
    (collectContents ms).2
      = (ms.filter (fun m => m.message_type == "assistant")).map (fun m => m.content.toLower) := by
  induction ms with
  | nil => rfl
  | cons m rest ih =>
    rw [collectContents]
    by_cases hu : (m.message_type == "user") = true
    · have ha : (m.message_type == "assistant") = false := by
        have := beq_iff_eq.mp hu
        simp [this]
      rw [if_pos hu]
      simp only [List.filter_cons, ha, Bool.false_eq_true, if_false]
      exact ih
    · rw [if_neg hu]
      by_cases ha : (m.message_type == "assistant") = true
      · rw [if_pos ha]
        simp only [List.filter_cons, ha, if_true, List.map_cons]
        exact congrArg _ ih
      · have ha' : (m.message_type == "assistant") = false := by simpa using ha
        rw [if_neg ha]
        simp only [List.filter_cons, ha', Bool.false_eq_true, if_false]
        exact ih

/-- Claim C10: `detect_patterns` depends only on the contents of the
messages whose role is `"user"` or `"assistant"`: two conversations that
agree on session id, repository path, and on the content sequences of their
user messages and of their assistant messages produce identical
`PatternMatch` records and `total_score`, whatever other-role messages they
contain. -/
theorem detect_patterns_role_independence {π : Type} (E : RegexEngine π)
    (table : List (String × List PatternDef)) (c1 c2 : Conversation)
    (hsid : c1.session_id = c2.session_id)
    (hpath : c1.repository_path = c2.repository_path)
    (huser : (c1.messages.filter (fun m => m.message_type == "user")).map (·.content)
           = (c2.messages.filter (fun m => m.message_type == "user")).map (·.content))
    (hassistant : (c1.messages.filter (fun m => m.message_type == "assistant")).map (·.content)
           = (c2.messages.filter (fun m => m.message_type == "assistant")).map (·.content)) :
    detect_patterns E table c1 = detect_patterns E table c2 := by
  have h1 : (collectContents c1.messages).1 = (collectContents c2.messages).1 := by
    rw [collectContents_fst, collectContents_fst]
    have := congrArg (List.map String.toLower) huser
    simpa [List.map_map, Function.comp] using this
  have h2 : (collectContents c1.messages).2 = (collectContents c2.messages).2 := by
    rw [collectContents_snd, collectContents_snd]
    have := congrArg (List.map String.toLower) hassistant
    simpa [List.map_map, Function.comp] using this
  have hrepo : c1.repository_name = c2.repository_name := by
    unfold Conversation.repository_name
    rw [hpath]
  simp only [detect_patterns]
  rw [h1, h2, hsid, hrepo]

/-- Witness for C10: adding a `system`-role message (whose text would match
`error_detection` patterns) changes nothing. -/
theorem detect_patterns_role_independence_witness :
    detect_patterns demoEngine load_default_patterns wConvRA
      = detect_patterns demoEngine load_default_patterns wConvRB :=
  detect_patterns_role_independence demoEngine load_default_patterns wConvRA wConvRB
    rfl rfl (by decide) (by decide)

lemma listMin_mem (x0 : Int) (xs : List Int) :
    listMin x0 xs = x0 ∨ listMin x0 xs ∈ xs := by
  induction xs generalizing x0 with
  | nil => left; rfl
  | cons y ys ih =>
    have h := ih (min x0 y)
    have hfold : listMin x0 (y :: ys) = listMin (min x0 y) ys := rfl
    rw [hfold]
    rcases h with h1 | h1
    · rcases min_choice x0 y with hm | hm
      · left; rw [h1, hm]
      · right; rw [h1, hm]; exact List.mem_cons_self y ys
    · right; exact List.mem_cons_of_mem y h1

lemma listMin_le (x0 : Int) (xs : List Int) :
    listMin x0 xs ≤ x0 ∧ ∀ y ∈ xs, listMin x0 xs ≤ y := by
  induction xs generalizing x0 with
  | nil => exact ⟨le_refl x0, by intro y hy; cases hy⟩
  | cons y ys ih =>
    have h := ih (min x0 y)
    have hfold : listMin x0 (y :: ys) = listMin (min x0 y) ys := rfl
    rw [hfold]
    refine ⟨le_trans h.1 (min_le_left x0 y), ?_⟩
    intro z hz
    rcases List.mem_cons.mp hz with rfl | hz'
    · exact le_trans h.1 (min_le_right x0 z)
    · exact h.2 z hz'

lemma listMax_mem (x0 : Int) (xs : List Int) :
    listMax x0 xs = x0 ∨ listMax x0 xs ∈ xs := by
  induction xs generalizing x0 with
  | nil => left; rfl
  | cons y ys ih =>
    have h := ih (max x0 y)
    have hfold : listMax x0 (y :: ys) = listMax (max x0 y) ys := rfl
    rw [hfold]
    rcases h with h1 | h1
    · rcases max_choice x0 y with hm | hm
      · left; rw [h1, hm]
      · right; rw [h1, hm]; exact List.mem_cons_self y ys
    · right; exact List.mem_cons_of_mem y h1

lemma listMax_ge (x0 : Int) (xs : List Int) :
    x0 ≤ listMax x0 xs ∧ ∀ y ∈ xs, y ≤ listMax x0 xs := by
  induction xs generalizing x0 with
  | nil => exact ⟨le_refl x0, by intro y hy; cases hy⟩
  | cons y ys ih =>
    have h := ih (max x0 y)
    have hfold : listMax x0 (y :: ys) = listMax (max x0 y) ys := rfl
    rw [hfold]
    refine ⟨le_trans (le_max_left x0 y) h.1, ?_⟩
    intro z hz
    rcases List.mem_cons.mp hz with rfl | hz'
    · exact le_trans (le_max_right x0 z) h.1
    · exact h.2 z hz'

lemma firstTruthy_map (f : ConversationMessage → Option String)
    (ms : List ConversationMessage) :
    firstTruthy (ms.map f) = (ms.filterMap f).find? (fun s => !s.isEmpty) := by
  induction ms with
  | nil => rfl
  | cons m rest ih =>
    rw [List.map_cons]
    cases hf : f m with
    | none => simp [firstTruthy, List.filterMap_cons, hf, ih]
    | some s =>
      by_cases hs : s.isEmpty
      · simp [firstTruthy, List.filterMap_cons, hf, hs, ih, List.find?]
      · simp [firstTruthy, List.filterMap_cons, hf, hs, List.find?]

/-- Claim C6 as amended: provided every line's parse returns normally (no
line raises — see the counterexample theorem for the failure case), a file
from which at least one message parses produces exactly one `Conversation`
whose `start_time` is the minimum and `end_time` the maximum of the
messages' timestamps, whose `message_count` equals the number of parsed
messages, whose `session_id` is the first message's, and whose
`repository_path` and `git_branch` are the first non-empty cwd/branch seen
in file order; a file from which no message parses produces nothing. -/
theorem parse_conversation_file_spec (lines : List (Option Json))
    (parseIso : String → Option Int) (now : Int)
    (msgs : List ConversationMessage)
    (hok : collectMessages lines parseIso now = .ok msgs) :
    (msgs = [] → parse_conversation_file lines parseIso now = .ok none) ∧
    (∀ m ms, msgs = m :: ms →
      ∃ conv, parse_conversation_file lines parseIso now = .ok (some conv) ∧
        conv.message_count = msgs.length ∧
        conv.session_id = m.session_id ∧
        conv.messages = msgs ∧
        (conv.start_time ∈ msgs.map (·.timestamp) ∧
          ∀ t ∈ msgs.map (·.timestamp), conv.start_time ≤ t) ∧
        (conv.end_time ∈ msgs.map (·.timestamp) ∧
          ∀ t ∈ msgs.map (·.timestamp), t ≤ conv.end_time) ∧
        conv.repository_path = (msgs.filterMap (·.cwd)).find? (fun s => !s.isEmpty) ∧
        conv.git_branch = (msgs.filterMap (·.git_branch)).find? (fun s => !s.isEmpty)) := by
  constructor
  · intro hnil
    subst hnil
    rw [parse_conversation_file, hok]
  · intro m ms hcons
    subst hcons
    refine ⟨_, by rw [parse_conversation_file, hok], rfl, rfl, rfl, ?_, ?_, ?_, ?_⟩
    · constructor
      · rcases listMin_mem m.timestamp (ms.map (·.timestamp)) with h | h
        · rw [List.map_cons, h]; exact List.mem_cons_self _ _
        · exact List.mem_cons_of_mem _ h
      · intro t ht
        rcases List.mem_cons.mp ht with rfl | ht'
        · exact (listMin_le m.timestamp (ms.map (·.timestamp))).1
        · exact (listMin_le m.timestamp (ms.map (·.timestamp))).2 t ht'
    · constructor
      · rcases listMax_mem m.timestamp (ms.map (·.timestamp)) with h | h
        · rw [List.map_cons, h]; exact List.mem_cons_self _ _
        · exact List.mem_cons_of_mem _ h
      · intro t ht
        rcases List.mem_cons.mp ht with rfl | ht'
        · exact (listMax_ge m.timestamp (ms.map (·.timestamp))).1
        · exact (listMax_ge m.timestamp (ms.map (·.timestamp))).2 t ht'
    · exact firstTruthy_map (·.cwd) (m :: ms)
    · exact firstTruthy_map (·.git_branch) (m :: ms)

/-- Claim C6 (counterexample to the claim as stated): a file whose first
line parses to a message (so at least one message parses) but whose second
line is the valid-JSON array `[]` makes `_parse_conversation_file` raise
`AttributeError` instead of producing a conversation. -/
theorem parse_conversation_file_raises :
    from_jsonl_line (some (.obj [])) (fun _ => none) 5 = .ok (some wMsg6) ∧
    parse_conversation_file [some (.obj []), some (.arr [])] (fun _ => none) 5
      = .error .attributeError := by
  exact ⟨by decide, by decide⟩

/-- Witness for the amended C6 on the one-line file `{}`. -/
theorem parse_conversation_file_spec_witness :
    parse_conversation_file [some (.obj [])] (fun _ => none) 5 = .ok (some wConv6) ∧
    wConv6.message_count = 1 ∧ wConv6.session_id = "" := by
  have hth := (parse_conversation_file_spec [some (.obj [])] (fun _ => none) 5
      [wMsg6] (by decide)).2 wMsg6 [] rfl
  obtain ⟨conv, hc, hcount, hsid, -⟩ := hth
  have hw : parse_conversation_file [some (.obj [])] (fun _ => none) 5
      = .ok (some wConv6) := by decide
  rw [hw] at hc
  have hconv : wConv6 = conv := by
    injection hc with h1
    injection h1
  rw [← hconv] at hcount hsid
  exact ⟨hw, hcount, hsid⟩

lemma takeWhile_dropWhile_digits (u : Char) (rest : List Char)
    (hu : u.isDigit = false) :
    ∀ ds : List Char, (∀ c ∈ ds, c.isDigit = true) →
      (ds ++ u :: rest).takeWhile (fun c => c.isDigit) = ds
        ∧ (ds ++ u :: rest).dropWhile (fun c => c.isDigit) = u :: rest := by
  intro ds
  induction ds with
  | nil =>
    intro h0
    simp [List.takeWhile_cons, List.dropWhile_cons, hu]
  | cons c cs ih =>
    intro h
    have hc : c.isDigit = true := h c (List.mem_cons_self c cs)
    have hcs := ih (fun x hx => h x (List.mem_cons_of_mem c hx))
    simp [List.takeWhile_cons, List.dropWhile_cons, hc, hcs.1, hcs.2]

lemma span_digits (ds rest : List Char) (u : Char)
    (hds : ∀ c ∈ ds, c.isDigit = true) (hu : u.isDigit = false) :
    (ds ++ u :: rest).span (fun c => c.isDigit) = (ds, u :: rest) := by
  rw [List.span_eq_take_drop,
    (takeWhile_dropWhile_digits u rest hu ds hds).1,
    (takeWhile_dropWhile_digits u rest hu ds hds).2]

lemma parse_since_leading (since : String) (now : Int) (ds rest : List Char) (u : Char)
    (h : since.toList.map Char.toLower = ds ++ u :: rest)
    (hne : ds ≠ []) (hds : ∀ c ∈ ds, c.isDigit = true) (hu : u.isDigit = false) :
    parse_since since now =
      (if u == 'd' then some (now - (digitsToNat ds : Int) * daySecs)
       else if u == 'w' then some (now - (digitsToNat ds : Int) * (7 * daySecs))
       else if u == 'm' then some (now - (digitsToNat ds : Int) * (30 * daySecs))
       else none) := by
  have hsne : since.isEmpty = false := by
    cases hse : since.isEmpty
    · rfl
    · exfalso
      have he : since = "" := (String.isEmpty_iff since).mp hse
      rw [he] at h
      have hnil : ("" : String).toList.map Char.toLower = [] := rfl
      rw [hnil] at h
      cases ds with
      | nil => cases h
      | cons a as => cases h
  have hdne : ds.isEmpty = false := by
    cases ds with
    | nil => exact absurd rfl hne
    | cons a as => rfl
  simp only [parse_since, hsne, Bool.false_eq_true, if_false, h,
    span_digits ds rest u hds hu, hdne]

lemma mem_insertDesc (a c : Conversation) (l : List Conversation) :
    a ∈ insertDesc c l ↔ a = c ∨ a ∈ l := by
  induction l with
  | nil => simp [insertDesc]
  | cons x xs ih =>
    rw [insertDesc]
    by_cases h : c.start_time ≤ x.start_time
    · rw [if_pos h]
      simp only [List.mem_cons, ih]
      tauto
    · rw [if_neg h]
      simp only [List.mem_cons]

lemma mem_sortDesc (a : Conversation) (l : List Conversation) :
    a ∈ sortDesc l ↔ a ∈ l := by
  suffices h : ∀ acc, a ∈ l.foldl (fun acc c => insertDesc c acc) acc ↔ a ∈ acc ∨ a ∈ l by
    simpa [sortDesc] using h []
  induction l with
  | nil => intro acc; simp
  | cons c cs ih =>
    intro acc
    rw [List.foldl_cons, ih (insertDesc c acc)]
    simp only [mem_insertDesc, List.mem_cons]
    tauto

lemma mem_scan_conversations (files : List (List (Option Json)))
    (parseIso : String → Option Int) (now : Int) (rf : Option String)
    (since : String) (c : Conversation) :
    c ∈ scan_conversations files parseIso now rf since ↔
      c ∈ assembleFiles files parseIso now
        ∧ keepConv (parse_since since now) rf c = true := by
  unfold scan_conversations
  rw [mem_sortDesc, List.mem_filter]

/-- Claim C8 as amended: the time window is a post-filter on assembled
conversations — when the (lenient, anchored-prefix) parse of `since`
produces a cutoff `t`, exactly the conversations with `start_time < t` are
dropped, and when it produces no cutoff all conversations are kept; the
parse reads a leading `<integer><d|w|m>` of the lowercased value and
ignores trailing characters (so `"7dxyz"` behaves like `"7d"`, and only
values with no such prefix, e.g. `"abc"`, disable the cutoff), with
d/w/m = 1/7/30 days. -/
theorem scan_time_window_spec (files : List (List (Option Json)))
    (parseIso : String → Option Int) (now : Int) (since : String) :
    (∀ t, parse_since since now = some t →
      ∀ c, c ∈ scan_conversations files parseIso now none since ↔
        (c ∈ assembleFiles files parseIso now ∧ ¬ c.start_time < t)) ∧
    (parse_since since now = none →
      ∀ c, c ∈ scan_conversations files parseIso now none since ↔
        c ∈ assembleFiles files parseIso now) ∧
    (∀ ds rest, since.toList.map Char.toLower = ds ++ 'd' :: rest → ds ≠ [] →
       (∀ ch ∈ ds, ch.isDigit = true) →
       parse_since since now = some (now - (digitsToNat ds : Int) * daySecs)) ∧
    (∀ ds rest, since.toList.map Char.toLower = ds ++ 'w' :: rest → ds ≠ [] →
       (∀ ch ∈ ds, ch.isDigit = true) →
       parse_since since now = some (now - (digitsToNat ds : Int) * (7 * daySecs))) ∧
    (∀ ds rest, since.toList.map Char.toLower = ds ++ 'm' :: rest → ds ≠ [] →
       (∀ ch ∈ ds, ch.isDigit = true) →
       parse_since since now = some (now - (digitsToNat ds : Int) * (30 * daySecs))) := by
  refine ⟨?_, ?_, ?_, ?_, ?_⟩
  · intro t ht c
    rw [mem_scan_conversations, ht]
    simp [keepConv]
  · intro ht c
    rw [mem_scan_conversations, ht]
    simp [keepConv]
  · intro ds rest h hne hds
    rw [parse_since_leading since now ds rest 'd' h hne hds (by decide)]
    rfl
  · intro ds rest h hne hds
    rw [parse_since_leading since now ds rest 'w' h hne hds (by decide)]
    rfl
  · intro ds rest h hne hds
    rw [parse_since_leading since now ds rest 'm' h hne hds (by decide)]
    rfl

/-- Claim C8 (counterexample to the claim as stated): `"7dxyz"` is not of
the form `<integer><d|w|m>`, yet the scan does apply a 7-day cutoff — a
conversation 10 days old is dropped, while with the genuinely unparsable
`"abc"` it is included. -/
theorem scan_time_window_lenient_prefix :
    sinceHasExactForm "7dxyz" = false ∧
    scan_conversations [[wLine8]] isoT 0 none "7dxyz" = [] ∧
    scan_conversations [[wLine8]] isoT 0 none "abc"
      = [{ session_id := "", repository_path := none, git_branch := none
         , start_time := -864000, end_time := -864000, message_count := 1
         , messages := [{ session_id := "", timestamp := -864000, message_type := ""
                        , content := "", cwd := none, git_branch := none }] }] := by
  exact ⟨by decide, by decide, by decide⟩

/-- Witness for the amended C8: `"7d"` at `now = 0` gives the 7-day cutoff. -/
theorem scan_time_window_spec_witness :
    parse_since "7d" 0 = some (0 - (7 : Int) * daySecs) := by
  have h := (scan_time_window_spec [] (fun _ => none) 0 "7d").2.2.1
    ['7'] [] (by decide) (by decide) (by decide)
  simpa using h

lemma filter_absorb {α : Type} (l : List α) (p q : α → Bool)
    (h : ∀ a ∈ l, q a = true → p a = true) :
    (l.filter p).filter q = l.filter q := by
  rw [List.filter_filter]
  apply List.filter_congr
  intro a ha
  cases hq : q a
  · simp
  · simp [h a ha hq]

lemma convsFor_upsert_ne (convs : List ConvRow) (rc : ConvRow) (sid R R' : String)
    (_hsid : rc.session_id = sid) (hrc : rc.repository_name = R)
    (hR : (R == R') = false)
    (hstable : ∀ cv ∈ convs, cv.session_id = sid → cv.repository_name = R) :
    convsFor (convs.filter (fun r => !(r.session_id == sid)) ++ [rc]) R'
      = convsFor convs R' := by
  unfold convsFor
  rw [List.filter_append]
  have h1 : List.filter (fun c => c.repository_name == R') [rc] = [] := by
    simp only [List.filter, hrc, hR]
  rw [h1, List.append_nil]
  apply filter_absorb
  intro a ha hq
  have hrepo : a.repository_name = R' := beq_iff_eq.mp hq
  have hne : ¬ a.session_id = sid := by
    intro hs
    have h2 := hstable a ha hs
    rw [h2] at hrepo
    rw [hrepo] at hR
    simp at hR
  simp [hne]

lemma countP_zero_of_session (convs : List ConvRow) (R R' : String)
    (sid : String) (hR : (R == R') = false)
    (hstable : ∀ cv ∈ convs, cv.session_id = sid → cv.repository_name = R)
    (p : PatternRow) (hp : p.session_id = sid) :
    (convsFor convs R').countP (fun c => c.session_id == p.session_id) = 0 := by
  rw [List.countP_eq_zero]
  intro cv hcv
  have hmem := List.mem_filter.mp hcv
  have hrepo : cv.repository_name = R' := beq_iff_eq.mp hmem.2
  intro hbeq
  have hs : cv.session_id = sid := by rw [beq_iff_eq.mp hbeq, hp]
  have h2 := hstable cv hmem.1 hs
  rw [h2] at hrepo
  rw [hrepo] at hR
  simp at hR

lemma sum_map_filter_sub (psid q : PatternRow → Bool) (f : PatternRow → Int) :
    ∀ l : List PatternRow, (∀ a ∈ l, psid a = false → f a = 0) →
    ((l.filter (fun a => q a && psid a)).map f).sum = ((l.filter q).map f).sum := by
  intro l
  induction l with
  | nil => intro h0; rfl
  | cons a as ih =>
    intro h
    have ih' := ih (fun x hx hpx => h x (List.mem_cons_of_mem a hx) hpx)
    by_cases hp : psid a = true
    · by_cases hq2 : q a = true
      · simp [List.filter_cons, hp, hq2, ih']
      · simp [List.filter_cons, hp, hq2, ih']
    · have hp' : psid a = false := by simpa using hp
      have hfa := h a (List.mem_cons_self a as) hp'
      by_cases hq2 : q a = true
      · simp [List.filter_cons, hp', hq2, ih', hfa]
      · simp [List.filter_cons, hp', hq2, ih']

lemma patSum_upsert_ne (convs : List ConvRow) (pats newRows : List PatternRow)
    (rc : ConvRow) (sid R R' : String) (q : PatternRow → Bool)
    (hsid : rc.session_id = sid) (hrc : rc.repository_name = R)
    (hR : (R == R') = false)
    (hstable : ∀ cv ∈ convs, cv.session_id = sid → cv.repository_name = R)
    (hnew : ∀ p ∈ newRows, p.session_id = sid) :
    patSum (convs.filter (fun r => !(r.session_id == sid)) ++ [rc])
           (pats.filter (fun r => !(r.session_id == sid)) ++ newRows) R' q
      = patSum convs pats R' q := by
  have hconv := convsFor_upsert_ne convs rc sid R R' hsid hrc hR hstable
  unfold patSum multOf
  rw [hconv, List.filter_append, List.map_append, List.sum_append]
  have hnr : ((newRows.filter q).map
      (fun p => (((convsFor convs R').countP (fun c => c.session_id == p.session_id) : Nat) : Int)
        * p.match_count)).sum = 0 := by
    apply List.sum_eq_zero
    intro x hx
    obtain ⟨p, hp, rfl⟩ := List.mem_map.mp hx
    have hps := hnew p (List.mem_of_mem_filter hp)
    rw [countP_zero_of_session convs R R' sid hR hstable p hps]
    simp
  rw [hnr, add_zero, List.filter_filter]
  apply sum_map_filter_sub
  intro a ha hpa
  have hps : a.session_id = sid := by
    have h2 : (a.session_id == sid) = true := by simpa using hpa
    exact beq_iff_eq.mp h2
  rw [countP_zero_of_session convs R R' sid hR hstable a hps]
  simp

lemma summaryEntries_upsert_ne (convs : List ConvRow) (pats newRows : List PatternRow)
    (rc : ConvRow) (sid R R' : String)
    (hsid : rc.session_id = sid) (hrc : rc.repository_name = R)
    (hR : (R == R') = false)
    (hstable : ∀ cv ∈ convs, cv.session_id = sid → cv.repository_name = R)
    (hnew : ∀ p ∈ newRows, p.session_id = sid) :
    summaryEntries (convs.filter (fun r => !(r.session_id == sid)) ++ [rc])
                   (pats.filter (fun r => !(r.session_id == sid)) ++ newRows) R'
      = summaryEntries convs pats R' := by
  have hconv := convsFor_upsert_ne convs rc sid R R' hsid hrc hR hstable
  unfold summaryEntries summaryKeys
  unfold multOf
  rw [hconv, List.filter_append]
  have hnr : newRows.filter
      (fun p => decide (0 < (convsFor convs R').countP (fun c => c.session_id == p.session_id))) = [] := by
    rw [List.filter_eq_nil_iff]
    intro p hp
    rw [countP_zero_of_session convs R R' sid hR hstable p (hnew p hp)]
    simp
  rw [hnr, List.append_nil]
  have habs : (pats.filter (fun r => !(r.session_id == sid))).filter
        (fun p => decide (0 < (convsFor convs R').countP (fun c => c.session_id == p.session_id)))
      = pats.filter
        (fun p => decide (0 < (convsFor convs R').countP (fun c => c.session_id == p.session_id))) := by
    apply filter_absorb
    intro a ha hq
    simp only [decide_eq_true_eq] at hq
    by_cases hs : a.session_id = sid
    · rw [countP_zero_of_session convs R R' sid hR hstable a hs] at hq
      exact absurd hq (by simp)
    · simp [hs]
  rw [habs]
  apply List.map_congr_left
  intro k hk
  have := patSum_upsert_ne convs pats newRows rc sid R R'
    (fun p => p.pattern_name == k.1 && p.pattern_category == k.2)
    hsid hrc hR hstable hnew
  unfold keyTotal
  rw [this]

lemma rollup_name (convs : List ConvRow) (pats : List PatternRow) (R : String) :
    (rollup convs pats R).repository_name = R := rfl

lemma rollup_upsert_ne (convs : List ConvRow) (pats newRows : List PatternRow)
    (rc : ConvRow) (sid R R' : String)
    (hsid : rc.session_id = sid) (hrc : rc.repository_name = R)
    (hR : (R == R') = false)
    (hstable : ∀ cv ∈ convs, cv.session_id = sid → cv.repository_name = R)
    (hnew : ∀ p ∈ newRows, p.session_id = sid) :
    rollup (convs.filter (fun r => !(r.session_id == sid)) ++ [rc])
           (pats.filter (fun r => !(r.session_id == sid)) ++ newRows) R'
      = rollup convs pats R' := by
  have hconv := convsFor_upsert_ne convs rc sid R R' hsid hrc hR hstable
  have hp1 := patSum_upsert_ne convs pats newRows rc sid R R'
    (fun p => p.pattern_category == "error_detection") hsid hrc hR hstable hnew
  have hp2 := patSum_upsert_ne convs pats newRows rc sid R R'
    (fun p => p.pattern_category == "tool_usage") hsid hrc hR hstable hnew
  have hsum := summaryEntries_upsert_ne convs pats newRows rc sid R R'
    hsid hrc hR hstable hnew
  unfold rollup
  rw [hconv, hp1, hp2, hsum]

lemma metricsOK_store (s : StoreState) (c : Conversation) (cp : ConversationPatterns)
    (hks : ∀ cv ∈ s.conversations,
      cv.session_id = c.session_id → cv.repository_name = c.repository_name)
    (hok : MetricsOK s) :
    MetricsOK (store_conversation_metrics s c cp) := by
  intro r hr
  simp only [store_conversation_metrics] at hr ⊢
  rcases List.mem_append.mp hr with hr1 | hr1
  · have hmf := List.mem_filter.mp hr1
    have hne : (r.repository_name == c.repository_name) = false := by
      simpa using hmf.2
    have hne' : (c.repository_name == r.repository_name) = false := by
      rw [beq_eq_false_iff_ne] at hne ⊢
      exact hne.symm
    have hold := hok r hmf.1
    rw [rollup_upsert_ne s.conversations s.patterns
      (patRowsOf c.session_id cp.patterns) (convRowOf c) c.session_id
      c.repository_name r.repository_name rfl rfl hne' hks
      (by intro p hp
          simp only [patRowsOf, List.mem_map] at hp
          obtain ⟨x, -, rfl⟩ := hp
          rfl)]
    exact hold
  · have hr2 : r = rollup
        (s.conversations.filter (fun x => !(x.session_id == c.session_id)) ++ [convRowOf c])
        (s.patterns.filter (fun x => !(x.session_id == c.session_id))
          ++ patRowsOf c.session_id cp.patterns)
        c.repository_name := by
      simpa using hr1
    rw [hr2, rollup_name]

lemma metricsOK_applyAll :
    ∀ (inputs : List (Conversation × ConversationPatterns)) (s : StoreState),
      Stable inputs →
      MetricsOK s →
      (∀ cv ∈ s.conversations, ∀ inp ∈ inputs,
        cv.session_id = inp.1.session_id → cv.repository_name = inp.1.repository_name) →
      MetricsOK (applyAll s inputs) := by
  intro inputs
  induction inputs with
  | nil => intro s _ hok _; exact hok
  | cons inp rest ih =>
    intro s hst hok hsc
    have hstep := metricsOK_store s inp.1 inp.2
      (fun cv hcv h => hsc cv hcv inp (List.mem_cons_self _ _) h) hok
    have happly : applyAll s (inp :: rest)
        = applyAll (store_conversation_metrics s inp.1 inp.2) rest := rfl
    rw [happly]
    apply ih _ (fun i hi j hj => hst i (List.mem_cons_of_mem _ hi) j (List.mem_cons_of_mem _ hj))
      hstep
    intro cv hcv inp' hinp' heq
    simp only [store_conversation_metrics] at hcv
    rcases List.mem_append.mp hcv with h1 | h1
    · exact hsc cv (List.mem_filter.mp h1).1 inp' (List.mem_cons_of_mem _ hinp') heq
    · have hcv2 : cv = convRowOf inp.1 := by simpa using h1
      subst hcv2
      exact hst inp (List.mem_cons_self _ _) inp' (List.mem_cons_of_mem _ hinp') heq

/-- Claim C1 as amended: provided no session_id is re-upserted under a
different repository_name (each conversation keeps its repository across
the call sequence — see the counterexample theorem for why this proviso is
needed), after any sequence of `store_conversation_metrics` calls starting
from an empty store, every stored `RepositoryMetrics` row equals the
aggregate recomputed from the currently stored conversation and pattern
rows of its repository: `conversation_count` is the number of stored
conversations of R, `total_messages` the sum of their `message_count`,
`last_activity` the max of their `end_time`, and `error_count` /
`tool_usage_count` the summed `match_count` of the joined pattern rows of
category `error_detection` / `tool_usage`. -/
theorem rollup_recompute_of_stable
    (inputs : List (Conversation × ConversationPatterns)) (hst : Stable inputs)
    (R : String) (row : RepoMetricsRow)
    (hlook : lookupMetrics (applyAll emptyStore inputs) R = some row) :
    row = rollup (applyAll emptyStore inputs).conversations
                 (applyAll emptyStore inputs).patterns R := by
  have hok := metricsOK_applyAll inputs emptyStore hst
    (by intro r hr; exact absurd hr (List.not_mem_nil r))
    (by intro cv hcv; exact absurd hcv (List.not_mem_nil cv))
  have hl2 : (applyAll emptyStore inputs).repository_metrics.find?
      (fun r => r.repository_name == R) = some row := hlook
  have hmem : row ∈ (applyAll emptyStore inputs).repository_metrics :=
    List.mem_of_find?_eq_some hl2
  have hname : row.repository_name = R := by simpa using List.find?_some hl2
  have h := hok row hmem
  rw [hname] at h
  exact h

/-- Claim C1 (counterexample to the claim as stated): upserting session `s`
under repository `A` and then re-upserting the same session under
repository `B` leaves a stored rollup row for `A` with
`conversation_count = 1`, while the aggregate recomputed from the stored
rows gives 0 — `_update_repository_metrics` only recomputes the new
repository's row. -/
theorem rollup_stale_after_repo_move :
    ((lookupMetrics cxState "A").map (fun r => r.conversation_count)) = some 1 ∧
    (rollup cxState.conversations cxState.patterns "A").conversation_count = 0 := by
  exact ⟨by decide, by decide⟩

/-- Witness for the amended C1: two conversations with distinct sessions,
both of repository `A`, yield a stored rollup row equal to the recomputed
aggregate (conversation_count 2, total_messages 5, error_count 2,
tool_usage_count 3, last_activity 20). -/
theorem rollup_recompute_of_stable_witness :
    lookupMetrics (applyAll emptyStore wInputs) "A"
      = some (rollup (applyAll emptyStore wInputs).conversations
                     (applyAll emptyStore wInputs).patterns "A") ∧
    (rollup (applyAll emptyStore wInputs).conversations
            (applyAll emptyStore wInputs).patterns "A").conversation_count = 2 := by
  have hl : lookupMetrics (applyAll emptyStore wInputs) "A"
      = some { repository_name := "A", conversation_count := 2, total_messages := 5
             , error_count := 2, tool_usage_count := 3, last_activity := some 20
             , pattern_summary := [(("runtime_errors", "error_detection"), 2)
                                  ,(("git_operations", "tool_usage"), 3)] } := by
    decide
  have h := rollup_recompute_of_stable wInputs (by decide) "A" _ hl
  refine ⟨?_, ?_⟩
  · rw [hl, h]
  · rw [← h]

end ClaudeMetrics
